import Mathlib

/-!
Verification of the schema-inference-and-typed-load pipeline
(Compara3PJ.py, the Dictionary Builder, and CriaePopulaSQLitePJ.py, the
Typed Loader) against its natural-language specification.

Strings of the Python program are embedded as `List Char`; pandas cell
values as the inductive type `Val` (a cell is a string, a number, or a
missing value — pandas NaN/NA/None are all `Val.vnull`).
-/

/-- The three declared types of the ANEEL data dictionary
(values of the tipo_aneel column). -/
inductive Tipo where
  | INTEGER
  | REAL
  | TEXT
deriving DecidableEq, Repr

/-- Model of Python str.lower() on field names: per-character ASCII
lowercasing (core Char.toLower maps A–Z to a–z and keeps every other
character, which is how str.lower() acts on the ASCII alphabet). -/
def lowerStr (s : List Char) : List Char :=
  s.map Char.toLower

/-- Model of Python str.startswith: the first argument read as a pattern
is a prefix of the second argument. -/
def startsWithL : List Char → List Char → Bool
  | [], _ => true
  | _ :: _, [] => false
  | p :: ps, c :: cs => p == c && startsWithL ps cs

/-- The string literal fic_ of map_tipo_aneel. -/
def ficPref : List Char := "fic_".toList

/-- The string literal dic_ of map_tipo_aneel. -/
def dicPref : List Char := "dic_".toList

/-- The string literal dem_ of map_tipo_aneel. -/
def demPref : List Char := "dem_".toList

/-- The string literal ene_ of map_tipo_aneel. -/
def enePref : List Char := "ene_".toList

/-- The string literal point_x of map_tipo_aneel. -/
def pxName : List Char := "point_x".toList

/-- The string literal point_y of map_tipo_aneel. -/
def pyName : List Char := "point_y".toList

/-- Embedding of map_tipo_aneel (Compara3PJ.py lines 34–44): lowercase the
field name, then fic_ prefix gives INTEGER; dic_/dem_/ene_ prefix or the
exact names point_x/point_y give REAL; everything else gives TEXT. -/
def map_tipo_aneel (campo : List Char) : Tipo :=
  let c := lowerStr campo
  if startsWithL ficPref c then .INTEGER
  else if startsWithL dicPref c || startsWithL demPref c ||
      startsWithL enePref c || c == pxName || c == pyName then .REAL
  else .TEXT

/-- Numeric value of an ASCII digit character. -/
def dval (c : Char) : Nat := c.toNat - 48

/-- Value of a digit list read in base 10. -/
def digitsToNat (l : List Char) : Nat := l.foldl (fun a c => a * 10 + dval c) 0

/-- An ASCII digit between 1 and 9. -/
def isDigit19 (c : Char) : Bool := c.isDigit && !(c == '0')

/-- Ordered candidate matches of the strptime directive %d, whose regex
alternatives are tried in the order 3[01], [12] digit, 0[1-9], [1-9]
(CPython _strptime.TimeRE). Each candidate is the parsed day together
with the unconsumed input. -/
def dayAlts (s : List Char) : List (Nat × List Char) :=
  (match s with
   | c1 :: c2 :: t =>
     if c1 == '3' && (c2 == '0' || c2 == '1') then [(30 + dval c2, t)] else []
   | _ => []) ++
  (match s with
   | c1 :: c2 :: t =>
     if (c1 == '1' || c1 == '2') && c2.isDigit then [(10 * dval c1 + dval c2, t)] else []
   | _ => []) ++
  (match s with
   | c1 :: c2 :: t => if c1 == '0' && isDigit19 c2 then [(dval c2, t)] else []
   | _ => []) ++
  (match s with
   | c1 :: t => if isDigit19 c1 then [(dval c1, t)] else []
   | _ => [])

/-- The English month abbreviations of the C locale, in the order the
strptime directive %b tries them, with their month numbers. -/
def monthTbl : List (List Char × Nat) :=
  [("jan".toList, 1), ("feb".toList, 2), ("mar".toList, 3), ("apr".toList, 4),
   ("may".toList, 5), ("jun".toList, 6), ("jul".toList, 7), ("aug".toList, 8),
   ("sep".toList, 9), ("oct".toList, 10), ("nov".toList, 11), ("dec".toList, 12)]

/-- Candidate matches of the strptime directive %b: a case-insensitive
three-letter month abbreviation. -/
def monthAlts (s : List Char) : List (Nat × List Char) :=
  match s with
  | c1 :: c2 :: c3 :: t =>
    monthTbl.filterMap (fun m =>
      if [c1.toLower, c2.toLower, c3.toLower] == m.1 then some (m.2, t) else none)
  | _ => []

/-- Candidate match of the strptime directive %Y: exactly four digits. -/
def yearAlts (s : List Char) : List (Nat × List Char) :=
  match s with
  | c1 :: c2 :: c3 :: c4 :: t =>
    if c1.isDigit && c2.isDigit && c3.isDigit && c4.isDigit then
      [(dval c1 * 1000 + dval c2 * 100 + dval c3 * 10 + dval c4, t)]
    else []
  | _ => []

/-- Candidate match of a literal character of the format string. -/
def litAlt (ch : Char) : List Char → List (Unit × List Char)
  | [] => []
  | c :: t => if c == ch then [((), t)] else []

/-- Candidate matches of the strptime directive %H, regex
2[0-3] then [0-1] digit then a single digit. -/
def hourAlts (s : List Char) : List (Nat × List Char) :=
  (match s with
   | c1 :: c2 :: t =>
     if c1 == '2' && c2.isDigit && dval c2 ≤ 3 then [(20 + dval c2, t)] else []
   | _ => []) ++
  (match s with
   | c1 :: c2 :: t =>
     if (c1 == '0' || c1 == '1') && c2.isDigit then [(10 * dval c1 + dval c2, t)] else []
   | _ => []) ++
  (match s with
   | c1 :: t => if c1.isDigit then [(dval c1, t)] else []
   | _ => [])

/-- Candidate matches of the strptime directive %M, regex
[0-5] digit then a single digit. -/
def minuteAlts (s : List Char) : List (Nat × List Char) :=
  (match s with
   | c1 :: c2 :: t =>
     if c1.isDigit && dval c1 ≤ 5 && c2.isDigit then [(10 * dval c1 + dval c2, t)] else []
   | _ => []) ++
  (match s with
   | c1 :: t => if c1.isDigit then [(dval c1, t)] else []
   | _ => [])

/-- Candidate matches of the strptime directive %S, regex
6[0-1] then [0-5] digit then a single digit (leap seconds included). -/
def secondAlts (s : List Char) : List (Nat × List Char) :=
  (match s with
   | c1 :: c2 :: t =>
     if c1 == '6' && (c2 == '0' || c2 == '1') then [(60 + dval c2, t)] else []
   | _ => []) ++
  (match s with
   | c1 :: c2 :: t =>
     if c1.isDigit && dval c1 ≤ 5 && c2.isDigit then [(10 * dval c1 + dval c2, t)] else []
   | _ => []) ++
  (match s with
   | c1 :: t => if c1.isDigit then [(dval c1, t)] else []
   | _ => [])

/-- Candidate matches of the strptime directive %f, regex [0-9]{1,6}:
greedily up to six digits, shorter matches tried on backtracking. More
than six consecutive digits are never consumed by %f. -/
def fracAlts (s : List Char) : List (Nat × List Char) :=
  let n := min ((s.takeWhile Char.isDigit).length) 6
  (List.range n).map (fun i =>
    let j := n - i
    (digitsToNat (s.take j), s.drop j))

/-- Result of matching the strptime format of parse_date against a prefix
of the input; rest is the unconsumed input. -/
structure StrpRes where
  day : Nat
  month : Nat
  year : Nat
  hour : Nat
  minute : Nat
  second : Nat
  rest : List Char
deriving DecidableEq, Repr

/-- Ordered-alternative bind: try each candidate in order, taking the
first one under which the continuation succeeds. This is the regex
backtracking discipline of re.match as used by strptime. -/
def candBind {α β : Type} (xs : List (α × List Char)) (f : α → List Char → Option β) : Option β :=
  match xs with
  | [] => none
  | (a, r) :: t =>
    match f a r with
    | some b => some b
    | none => candBind t f

/-- Model of re.match of the regex CPython compiles for the format
string of parse_date, namely the directives %d%b%Y:%H:%M:%S.%f
(CriaePopulaSQLitePJ.py line 93). Returns the first match in
backtracking order, or none when no prefix of the input matches. -/
def matchFmt (s : List Char) : Option StrpRes :=
  candBind (dayAlts s) fun d r1 =>
  candBind (monthAlts r1) fun mo r2 =>
  candBind (yearAlts r2) fun y r3 =>
  candBind (litAlt ':' r3) fun _ r4 =>
  candBind (hourAlts r4) fun h r5 =>
  candBind (litAlt ':' r5) fun _ r6 =>
  candBind (minuteAlts r6) fun mi r7 =>
  candBind (litAlt ':' r7) fun _ r8 =>
  candBind (secondAlts r8) fun se r9 =>
  candBind (litAlt '.' r9) fun _ r10 =>
  candBind (fracAlts r10) fun _f r11 =>
  some ⟨d, mo, y, h, mi, se, r11⟩

/-- Gregorian leap-year rule, as used by datetime's day validation. -/
def isLeap (y : Nat) : Bool := y % 4 == 0 && (y % 100 != 0 || y % 400 == 0)

/-- Days in a month, as used by datetime's day validation. -/
def daysInMonth (y m : Nat) : Nat :=
  if m = 2 then (if isLeap y then 29 else 28)
  else if m = 4 ∨ m = 6 ∨ m = 9 ∨ m = 11 then 30
  else 31

/-- A natural number printed in decimal, zero-padded to two digits. -/
def pad2 (n : Nat) : List Char :=
  if n < 10 then '0' :: Nat.toDigits 10 n else Nat.toDigits 10 n

/-- A natural number printed in decimal, zero-padded to four digits. -/
def pad4 (n : Nat) : List Char :=
  List.replicate (4 - (Nat.toDigits 10 n).length) '0' ++ Nat.toDigits 10 n

/-- Model of strftime with format %Y-%m-%dT%H:%M:%S
(CriaePopulaSQLitePJ.py line 94). -/
def fmtISO (m : StrpRes) : List Char :=
  pad4 m.year ++ '-' :: pad2 m.month ++ '-' :: pad2 m.day ++
  'T' :: pad2 m.hour ++ ':' :: pad2 m.minute ++ ':' :: pad2 m.second

/-- Embedding of parse_date (CriaePopulaSQLitePJ.py lines 90–96):
datetime.strptime against the format %d%b%Y:%H:%M:%S.%f, then strftime
to an ISO string; every failure (no regex match, unconverted trailing
input, or a calendar-invalid date, each a ValueError in Python) is
caught and becomes None. -/
def parse_date (s : List Char) : Option (List Char) :=
  match matchFmt s with
  | none => none
  | some m =>
    if !m.rest.isEmpty then none
    else if 1 ≤ m.year ∧ m.year ≤ 9999 ∧ 1 ≤ m.month ∧ m.month ≤ 12 ∧
        1 ≤ m.day ∧ m.day ≤ daysInMonth m.year m.month ∧
        m.hour ≤ 23 ∧ m.minute ≤ 59 ∧ m.second ≤ 59 then some (fmtISO m)
    else none

/-- A pandas cell value: a string, a number, or a missing value (NaN, NA
and None are all represented as vnull). -/
inductive Val where
  | vstr (s : List Char)
  | vnum (q : ℚ)
  | vnull
deriving DecidableEq, Repr

/-- Splits a character list at every occurrence of the separator; the
separator is consumed. -/
def splitOnC (sep : Char) : List Char → List (List Char)
  | [] => [[]]
  | c :: t =>
    if c == sep then [] :: splitOnC sep t
    else
      match splitOnC sep t with
      | h :: r => (c :: h) :: r
      | [] => [[c]]

/-- True when the list is a nonempty run of ASCII digits. -/
def allDigits (l : List Char) : Bool := !l.isEmpty && l.all Char.isDigit

/-- Unsigned part of the numeric-literal parser: an integer part with an
optional decimal fraction. -/
def parseNumCore (t : List Char) : Option ℚ :=
  match splitOnC '.' t with
  | [ip] => if allDigits ip then some ((digitsToNat ip : ℚ)) else none
  | [ip, fp] =>
    if allDigits ip && allDigits fp then
      some ((digitsToNat ip : ℚ) + (digitsToNat fp : ℚ) / ((10 : ℚ) ^ fp.length))
    else none
  | _ => none

/-- Modelled library behaviour: the numeric-literal parser behind
pandas.to_numeric (the same library call is made by both stages): an
optional sign followed by digits with an optional decimal fraction;
strings of any other shape are unparseable and coerce to NaN. -/
def parseNum (s : List Char) : Option ℚ :=
  match s with
  | '-' :: t => (parseNumCore t).map (fun q => -q)
  | '+' :: t => parseNumCore t
  | _ => parseNumCore s

/-- Model of pandas.to_numeric with errors equal to coerce on one cell:
numbers pass through, missing stays missing, strings parse or become
NaN. -/
def to_numeric_val (v : Val) : Val :=
  match v with
  | .vnull => .vnull
  | .vnum q => .vnum q
  | .vstr s =>
    match parseNum s with
    | some q => .vnum q
    | none => .vnull

/-- Model of Series.fillna with argument 0 on one cell. -/
def fillna_zero (v : Val) : Val :=
  match v with
  | .vnull => .vnum 0
  | w => w

/-- The numeric coercion of the Dictionary Builder sample pass:
pd.to_numeric with errors coerce followed by fillna 0
(Compara3PJ.py line 93). -/
def num_coerce_builder (v : Val) : Val := fillna_zero (to_numeric_val v)

/-- The numeric coercion of the Typed Loader chunk pass:
pd.to_numeric with errors coerce followed by fillna 0
(CriaePopulaSQLitePJ.py line 116). -/
def num_coerce_loader (v : Val) : Val := fillna_zero (to_numeric_val v)

/-- The configured date-field list of the Typed Loader
(CriaePopulaSQLitePJ.py line 32). -/
def DATE_FIELDS : List (List Char) := ["DATA_BASE".toList]

/-- The chunk size of the Typed Loader (CriaePopulaSQLitePJ.py line 31). -/
def CHUNKSIZE : Nat := 10000

/-- Column-wise application of parse_date, modelling
Series.apply(parse_date) on one cell: a string cell is parsed (null on
failure); a non-string cell makes strptime raise a TypeError, which
parse_date catches, so it also becomes null. -/
def applyDate (v : Val) : Val :=
  match v with
  | .vstr s =>
    match parse_date s with
    | some r => .vstr r
    | none => .vnull
  | _ => .vnull

/-- Model of Series.where(Series.notna(), None) on one cell: a missing
value becomes an explicit null, everything else passes through. -/
def null_norm (v : Val) : Val :=
  match v with
  | .vnull => .vnull
  | w => w

/-- The per-column cell transformation of the Typed Loader's chunk loop
(CriaePopulaSQLitePJ.py lines 114–120): numeric coercion for REAL and
INTEGER columns; otherwise date parsing for columns in DATE_FIELDS;
otherwise null normalization. -/
def transformColumn (col : List Char) (t : Tipo) (v : Val) : Val :=
  if t = .REAL ∨ t = .INTEGER then num_coerce_loader v
  else if DATE_FIELDS.contains col then applyDate v
  else null_norm v

/-- A row of a dataset: its cells, in the column order of tipo_map. -/
abbrev Row : Type := List Val

/-- The Typed Loader's transformation of one row: each cell transformed
according to its column name and declared type. -/
def transformRow (tm : List (List Char × Tipo)) (r : Row) : Row :=
  List.zipWith (fun ct v => transformColumn ct.1 ct.2 v) tm r

/-- The Typed Loader's transformation of one chunk, row by row. -/
def transformChunk (tm : List (List Char × Tipo)) (c : List Row) : List Row :=
  c.map (transformRow tm)

/-- The successive chunks a pandas reader with a fixed chunksize yields:
the first k rows, then the chunks of the rest; an empty source yields no
chunks. -/
def chunksOf (k : Nat) (l : List Row) : List (List Row) :=
  if k = 0 ∨ l = [] then []
  else l.take k :: chunksOf k (l.drop k)
termination_by l.length
decreasing_by
  rename_i h
  rw [List.length_drop]
  have h1 : k ≠ 0 := fun hk => h (Or.inl hk)
  have h2 : l ≠ [] := fun hl => h (Or.inr hl)
  have h3 : 0 < l.length := List.length_pos.mpr h2
  omega

/-- Result of the Typed Loader's chunk loop for one dataset: the number
of batches written, the list of chunks passed to to_sql in order, and
the final contents of the destination table. -/
structure ImportResult where
  batches : Nat
  written : List (List Row)
  table : List Row
deriving Repr

/-- The chunk loop of importa_tipo (CriaePopulaSQLitePJ.py lines
109–128): each chunk is transformed and written; the first chunk
replaces the table, every later chunk is appended. -/
def importaLoop (tm : List (List Char × Tipo)) :
    List (List Row) → Bool → Nat → List (List Row) → List Row → ImportResult
  | [], _, batch, written, table => ⟨batch, written, table⟩
  | c :: cs, first, batch, written, table =>
    let cT := transformChunk tm c
    if first then importaLoop tm cs false (batch + 1) (written ++ [cT]) cT
    else importaLoop tm cs false (batch + 1) (written ++ [cT]) (table ++ cT)

/-- Embedding of importa_tipo for one dataset (CriaePopulaSQLitePJ.py
lines 99–129), abstracted over the dictionary's column-type list, the
chunk size, the table contents left by a previous run, and the source
rows. -/
def importa_tipo (tm : List (List Char × Tipo)) (k : Nat) (prev : List Row)
    (src : List Row) : ImportResult :=
  importaLoop tm (chunksOf k src) true 0 [] prev

/-- The CSV quote character. -/
def quoteC : Char := Char.ofNat 34

/-- The newline character ending each CSV record. -/
def nlC : Char := Char.ofNat 10

/-- The carriage-return character. -/
def crC : Char := Char.ofNat 13

/-- The field delimiter SEP, a semicolon in both scripts. -/
def sepC : Char := ';'

/-- True when csv minimal quoting must quote the field: it contains the
delimiter, the quote character, a newline or a carriage return. -/
def needsQuote (f : List Char) : Bool :=
  f.any (fun c => c == sepC || c == quoteC || c == nlC || c == crC)

/-- Doubles every quote character, the csv escape inside a quoted
field. -/
def escapeQ : List Char → List Char
  | [] => []
  | c :: t => if c == quoteC then quoteC :: quoteC :: escapeQ t else c :: escapeQ t

/-- One field as DataFrame.to_csv writes it: quoted and escaped exactly
when minimal quoting requires it. -/
def wField (f : List Char) : List Char :=
  if needsQuote f then quoteC :: (escapeQ f ++ [quoteC]) else f

/-- One record as DataFrame.to_csv writes it: the fields joined by the
delimiter. -/
def wLine : List (List Char) → List Char
  | [] => []
  | [f] => wField f
  | f :: rest => wField f ++ sepC :: wLine rest

/-- Lists joined by a separator character. -/
def joinWith (sep : Char) : List (List Char) → List Char
  | [] => []
  | [l] => l
  | l :: ls => l ++ sep :: joinWith sep ls

/-- Reads a quoted csv field body after its opening quote: a doubled
quote is a literal quote, a single quote closes the field. Returns the
field content and the unconsumed input after the closing quote. -/
def rQuoted : List Char → List Char × List Char
  | [] => ([], [])
  | c :: t =>
    if c == quoteC then
      match t with
      | c2 :: t2 =>
        if c2 == quoteC then
          let p := rQuoted t2
          (quoteC :: p.1, p.2)
        else ([], t)
      | [] => ([], [])
    else
      let p := rQuoted t
      (c :: p.1, p.2)

/-- Reads an unquoted csv field: everything up to the next delimiter,
which is left in the unconsumed input. -/
def rRaw : List Char → List Char × List Char
  | [] => ([], [])
  | c :: t =>
    if c == sepC then ([], c :: t)
    else
      let p := rRaw t
      (c :: p.1, p.2)

/-- Reads one csv field, quoted or not, as pandas.read_csv does. -/
def rField (s : List Char) : List Char × List Char :=
  match s with
  | c :: _ => if c == quoteC then rQuoted s.tail else rRaw s
  | [] => ([], [])

/-- Reads the fields of one csv record; the fuel argument only bounds
the recursion and is chosen larger than the record length. -/
def rLineFuel : Nat → List Char → List (List Char)
  | 0, _ => []
  | Nat.succ n, s =>
    let p := rField s
    match p.2 with
    | c :: t => if c == sepC then p.1 :: rLineFuel n t else [p.1]
    | [] => [p.1]

/-- Reads the fields of one csv record as pandas.read_csv does. -/
def rLine (s : List Char) : List (List Char) := rLineFuel (s.length + 1) s

/-- A DataFrame as the builder sees it after reading a sample: the
columns in order, each a name with its cells. -/
structure DF where
  cols : List (List Char × List Val)
deriving DecidableEq, Repr

/-- One record of the Dictionary (DDA) File: field name, advisory pandas
dtype, declared tipo_aneel. -/
structure DDARow where
  campo : List Char
  pandas_dtype : List Char
  tipo_aneel : Tipo
deriving DecidableEq, Repr

/-- The tipo_aneel enum as the text the Dictionary File stores and the
SQL_TYPE_MAP of the Typed Loader keys on. -/
def tipoStr : Tipo → List Char
  | .INTEGER => "INTEGER".toList
  | .REAL => "REAL".toList
  | .TEXT => "TEXT".toList

/-- Modelled library behaviour: the pandas dtype name of a sample column
after the builder's adjustment pass — float64 for the numerically
coerced INTEGER/REAL columns, object for TEXT columns (advisory output
only; the declared type never depends on it). -/
def dtypeAfter (t : Tipo) : List Char :=
  if t = .TEXT then "object".toList else "float64".toList

/-- The DDA rows the builder assembles (Compara3PJ.py lines 105–115): one
row per column, the declared type from map_tipo_aneel on the column
name. -/
def buildDDA (df : DF) : List DDARow :=
  df.cols.map (fun c =>
    { campo := c.1
      pandas_dtype := dtypeAfter (map_tipo_aneel c.1)
      tipo_aneel := map_tipo_aneel c.1 })

/-- The header fields of the Dictionary File. -/
def headerFields : List (List Char) :=
  ["campo".toList, "pandas_dtype".toList, "tipo_aneel".toList]

/-- The three fields of one Dictionary File record. -/
def ddaRowFields (r : DDARow) : List (List Char) :=
  [r.campo, r.pandas_dtype, tipoStr r.tipo_aneel]

/-- The text of the Dictionary File as dda_df.to_csv writes it
(Compara3PJ.py line 120): a header record, one record per field, one
newline after every record (hence a final empty chunk when split at
newlines). -/
def writeDDA (rows : List DDARow) : List Char :=
  joinWith nlC ((wLine headerFields :: rows.map (fun r => wLine (ddaRowFields r))) ++ [[]])

/-- The campo-to-tipo_aneel pairs the Typed Loader's load_dda reads back
from a Dictionary File (CriaePopulaSQLitePJ.py lines 72–75): records
split at newlines, blank records skipped, the header consumed, and per
record the campo and tipo_aneel columns (positions 0 and 2 under the
written header) zipped into the mapping. -/
def load_dda_pairs (content : List Char) : List (List Char × List Char) :=
  match (splitOnC nlC content).filter (fun l => !l.isEmpty) with
  | [] => []
  | _hdr :: dataLines =>
    dataLines.map (fun ln => ((rLine ln).getD 0 [], (rLine ln).getD 2 []))

/-- An abstract file system as the scripts observe it through pathlib:
which paths are directories and which are files. -/
structure FS where
  isDir : List Char → Bool
  isFile : List Char → Bool

/-- Model of pathlib Path.exists: the path is a directory or a file. -/
def FS.pexists (fs : FS) (p : List Char) : Bool := fs.isDir p || fs.isFile p

/-- The INPUT_DIR constant of both scripts. -/
def INPUT_DIR : List Char := "C:/Users/ivocy/Downloads".toList

/-- The OUTPUT_DIR constant of the Dictionary Builder. -/
def OUTPUT_DIR : List Char := "C:/Projetos/TotalEnergie/BaseDados".toList

/-- The DDA_DIR constant of the Typed Loader (the same path as
OUTPUT_DIR). -/
def DDA_DIR : List Char := OUTPUT_DIR

/-- Path join with a forward slash, the pathlib slash operator. -/
def pathJoin (d f : List Char) : List Char := d ++ '/' :: f

/-- The three dataset tiers. -/
inductive Tier where
  | at_
  | mt
  | bt
deriving DecidableEq, Repr

/-- The tier tag as text, the FILES dict key. -/
def tierTag : Tier → List Char
  | .at_ => "at".toList
  | .mt => "mt".toList
  | .bt => "bt".toList

/-- The source file of each tier (the FILES dict of both scripts). -/
def fileOf : Tier → List Char
  | .at_ => pathJoin INPUT_DIR "ucat_pj.csv".toList
  | .mt => pathJoin INPUT_DIR "ucmt_pj.csv".toList
  | .bt => pathJoin INPUT_DIR "ucbt_pj.zip".toList

/-- The Dictionary File name of a tier. -/
def ddaName (tp : Tier) : List Char :=
  "DDA_ANEEL_uc".toList ++ tierTag tp ++ "_pj.csv".toList

/-- The Dictionary File path of a tier (the DDA_FILES dict). -/
def ddaFileOf (tp : Tier) : List Char := pathJoin DDA_DIR (ddaName tp)

/-- Iteration order of the FILES dict: its insertion order at, mt, bt. -/
def tiers : List Tier := [.at_, .mt, .bt]

/-- The missing-input-directory message of verify_environment. -/
def msgInputMissing : List Char :=
  "Diretorio de input nao encontrado: ".toList ++ INPUT_DIR

/-- The missing-source-file message of verify_environment. -/
def msgFileMissing (tp : Tier) : List Char :=
  "Arquivo nao encontrado (".toList ++ tierTag tp ++ "): ".toList ++ fileOf tp

/-- Embedding of verify_environment (Compara3PJ.py lines 47–58): collect
a message when the input directory does not exist or is not a
directory, and one for each missing source file. The target directory
OUTPUT_DIR is not among the checks. -/
def verify_environment (fs : FS) : List (List Char) :=
  (if !(fs.pexists INPUT_DIR) || !(fs.isDir INPUT_DIR) then [msgInputMissing] else []) ++
  tiers.filterMap (fun tp =>
    if !(fs.pexists (fileOf tp)) then some (msgFileMissing tp) else none)

/-- The environment requirements verify_environment checks, in check
order. -/
inductive BReq where
  | inputDir
  | srcFile (tp : Tier)
deriving DecidableEq, Repr

/-- The builder's pre-flight requirements in check order. -/
def breqs : List BReq := [.inputDir] ++ tiers.map .srcFile

/-- Whether a builder requirement holds on a file system. -/
def breqHolds (fs : FS) : BReq → Bool
  | .inputDir => fs.pexists INPUT_DIR && fs.isDir INPUT_DIR
  | .srcFile tp => fs.pexists (fileOf tp)

/-- The message verify_environment emits for a violated requirement. -/
def breqMsg : BReq → List Char
  | .inputDir => msgInputMissing
  | .srcFile tp => msgFileMissing tp

/-- Outcome of processing one dataset in the Dictionary Builder: a
Dictionary File exported at a path, or an exception caught and logged
with its stack trace. -/
inductive BOutcome where
  | exported (path : List Char) (dda : List DDARow)
  | failedLogged (err : List Char)
deriving DecidableEq, Repr

/-- Model of Path.mkdir with parents and exist_ok true: afterwards the
directory exists; creating an existing directory is no error. -/
def mkdirP (fs : FS) (d : List Char) : FS :=
  { fs with isDir := fun p => p == d || fs.isDir p }

/-- Model of writing a file into a directory: fails (FileNotFoundError)
when the directory does not exist. -/
def writeFileIn (fs : FS) (d nm : List Char) : Option FS :=
  if fs.isDir d then
    some { fs with isFile := fun p => p == pathJoin d nm || fs.isFile p }
  else none

/-- The builder's sample adjustment pass (Compara3PJ.py lines 88–96):
INTEGER/REAL columns numerically coerced with zero fill, other columns
left with explicit nulls. -/
def adjust_df (df : DF) : DF :=
  ⟨df.cols.map (fun c =>
    if map_tipo_aneel c.1 = .REAL ∨ map_tipo_aneel c.1 = .INTEGER then
      (c.1, c.2.map num_coerce_builder)
    else
      (c.1, c.2.map null_norm))⟩

/-- Embedding of processar_tipo (Compara3PJ.py lines 62–131) for one
dataset. The read of the sample may raise (the source is an Except);
any exception is caught, logged with a stack trace, and becomes a
failedLogged outcome instead of propagating. On a successful read the
sample is adjusted, the DDA assembled, the output directory created
with parents and exist_ok, and the Dictionary File written (a write
into a missing directory would itself be an exception caught by the
same handler). -/
def processar_tipo (fs : FS) (tp : Tier) (src : Except (List Char) DF) :
    FS × BOutcome :=
  match src with
  | .error e => (fs, .failedLogged e)
  | .ok df =>
    let rows := buildDDA (adjust_df df)
    let fs1 := mkdirP fs OUTPUT_DIR
    match writeFileIn fs1 OUTPUT_DIR (ddaName tp) with
    | some fs2 => (fs2, .exported (ddaFileOf tp) rows)
    | none => (fs1, .failedLogged "FileNotFoundError".toList)

/-- A run of the Dictionary Builder's main block: a pre-flight fatal
exit, or the per-tier outcomes. -/
inductive BRun where
  | fatal (msgs : List (List Char)) (exitCode : Nat)
  | ran (outcomes : List (Tier × BOutcome))
deriving DecidableEq, Repr

/-- Sequential processing of the tiers, threading the file system. -/
def builderLoop (fs : FS) : List Tier → (Tier → Except (List Char) DF) →
    List (Tier × BOutcome)
  | [], _ => []
  | tp :: rest, src =>
    let r := processar_tipo fs tp (src tp)
    (tp, r.2) :: builderLoop r.1 rest src

/-- Embedding of the Dictionary Builder's main block (Compara3PJ.py
lines 134–138): verify the environment first — a nonempty missing list
prints every message and exits with status 1 before any dataset is
processed — then process every tier in order. -/
def builderMain (fs : FS) (src : Tier → Except (List Char) DF) : BRun :=
  let missing := verify_environment fs
  if missing.isEmpty then .ran (builderLoop fs tiers src)
  else .fatal missing 1

/-- The outcome processar_tipo produces for one dataset, as a function
of that dataset's source alone. -/
def builderOutcomeOf (tp : Tier) (src : Except (List Char) DF) : BOutcome :=
  match src with
  | .error e => .failedLogged e
  | .ok df => .exported (ddaFileOf tp) (buildDDA (adjust_df df))

/-- A file system with the input directory and the three source files
present and nothing else — in particular no target directory. -/
def fsNoTarget : FS :=
  { isDir := fun p => p == INPUT_DIR
    isFile := fun p => p == fileOf .at_ || p == fileOf .mt || p == fileOf .bt }

/-- The missing-input-directory message of verify_files. -/
def msgInputDirL : List Char := "Input dir nao existe: ".toList ++ INPUT_DIR

/-- The missing-dictionary-directory message of verify_files. -/
def msgDdaDirL : List Char := "DDA dir nao existe: ".toList ++ DDA_DIR

/-- The missing-data-file message of verify_files. -/
def msgDataMissing (tp : Tier) : List Char :=
  "Arquivo de dados faltando (".toList ++ tierTag tp ++ "): ".toList ++ fileOf tp

/-- The missing-dictionary-file message of verify_files. -/
def msgDdaMissing (tp : Tier) : List Char :=
  "DDA faltando (".toList ++ tierTag tp ++ "): ".toList ++ ddaFileOf tp

/-- Embedding of verify_files (CriaePopulaSQLitePJ.py lines 54–69): the
two directory checks, then the data file of every tier, then the
Dictionary File of every tier, all collected into one missing list
before any exit. -/
def verify_files (fs : FS) : List (List Char) :=
  (if !(fs.isDir INPUT_DIR) then [msgInputDirL] else []) ++
  (if !(fs.isDir DDA_DIR) then [msgDdaDirL] else []) ++
  tiers.filterMap (fun tp =>
    if !(fs.pexists (fileOf tp)) then some (msgDataMissing tp) else none) ++
  tiers.filterMap (fun tp =>
    if !(fs.pexists (ddaFileOf tp)) then some (msgDdaMissing tp) else none)

/-- The loader's pre-flight requirements, in check order. -/
inductive LReq where
  | inputDir
  | ddaDir
  | dataFile (tp : Tier)
  | ddaFile (tp : Tier)
deriving DecidableEq, Repr

/-- The loader's pre-flight requirement list in check order. -/
def lreqs : List LReq :=
  [.inputDir, .ddaDir] ++ tiers.map .dataFile ++ tiers.map .ddaFile

/-- Whether a loader requirement holds on a file system. -/
def lreqHolds (fs : FS) : LReq → Bool
  | .inputDir => fs.isDir INPUT_DIR
  | .ddaDir => fs.isDir DDA_DIR
  | .dataFile tp => fs.pexists (fileOf tp)
  | .ddaFile tp => fs.pexists (ddaFileOf tp)

/-- The message verify_files emits for a violated requirement. -/
def lreqMsg : LReq → List Char
  | .inputDir => msgInputDirL
  | .ddaDir => msgDdaDirL
  | .dataFile tp => msgDataMissing tp
  | .ddaFile tp => msgDdaMissing tp

/-- A run of the Typed Loader's main block: a pre-flight fatal exit, or
the per-tier import results. -/
inductive LRun where
  | fatal (msgs : List (List Char)) (exitCode : Nat)
  | ran (imports : List (Tier × ImportResult))

/-- Embedding of the Typed Loader's main block (CriaePopulaSQLitePJ.py
lines 132–143): verify_files first — a nonempty missing list prints
every message and exits with status 1 before any dataset is loaded —
then import every tier in order with its dictionary. -/
def loaderMain (fs : FS) (tm : Tier → List (List Char × Tipo))
    (src : Tier → List Row) : LRun :=
  let missing := verify_files fs
  if missing.isEmpty then
    .ran (tiers.map (fun tp => (tp, importa_tipo (tm tp) CHUNKSIZE [] (src tp))))
  else .fatal missing 1

-- ===== Theorems =====

/-- Helper: reading back the code point of a valid Char.ofNat. -/
theorem toNat_ofNat_of_valid {n : Nat} (h : n.isValidChar) :
    (Char.ofNat n).toNat = n := by
  simp only [Char.ofNat, h, dif_pos, Char.ofNatAux, Char.toNat, UInt32.toNat]
  simp [BitVec.toNat_ofNatLt]

/-- Helper: ASCII lowercasing is idempotent. -/
theorem toLower_idem (c : Char) : c.toLower.toLower = c.toLower := by
  unfold Char.toLower
  by_cases h : c.toNat ≥ 65 ∧ c.toNat ≤ 90
  · have hv : (65 + 32 : Nat) ≤ c.toNat + 32 ∧ c.toNat + 32 ≤ 90 + 32 := by omega
    have hval : (c.toNat + 32).isValidChar := by
      unfold Nat.isValidChar
      left
      omega
    rw [if_pos h]
    have ht : (Char.ofNat (c.toNat + 32)).toNat = c.toNat + 32 :=
      toNat_ofNat_of_valid hval
    rw [if_neg]
    rw [ht]
    omega
  · rw [if_neg h, if_neg h]

/-- Helper: lowerStr is idempotent. -/
theorem lowerStr_idem (s : List Char) : lowerStr (lowerStr s) = lowerStr s := by
  induction s with
  | nil => rfl
  | cons c t ih =>
      simp only [lowerStr, List.map_cons, List.map_map] at *
      simp [toLower_idem, ih]

/-- C1: the type inference function map_tipo_aneel is pure, total and
deterministic (it is a Lean function), case-insensitive (it agrees with
itself on the lowercased name), maps names starting with fic_ to INTEGER,
names starting with dic_/dem_/ene_ or equal to point_x/point_y (after
lowercasing) to REAL, every other name to TEXT, and satisfies the five
concrete examples of the specification. -/
theorem c1_map_tipo_aneel_rule (s : List Char) :
    map_tipo_aneel s = map_tipo_aneel (lowerStr s) ∧
    (startsWithL ficPref (lowerStr s) = true → map_tipo_aneel s = .INTEGER) ∧
    ((startsWithL ficPref (lowerStr s) = false ∧
      (startsWithL dicPref (lowerStr s) || startsWithL demPref (lowerStr s) ||
       startsWithL enePref (lowerStr s) || lowerStr s == pxName ||
       lowerStr s == pyName) = true) → map_tipo_aneel s = .REAL) ∧
    ((startsWithL ficPref (lowerStr s) = false ∧
      (startsWithL dicPref (lowerStr s) || startsWithL demPref (lowerStr s) ||
       startsWithL enePref (lowerStr s) || lowerStr s == pxName ||
       lowerStr s == pyName) = false) → map_tipo_aneel s = .TEXT) ∧
    map_tipo_aneel "FIC_1".toList = .INTEGER ∧
    map_tipo_aneel "dem_pot".toList = .REAL ∧
    map_tipo_aneel "POINT_X".toList = .REAL ∧
    map_tipo_aneel "point_y".toList = .REAL ∧
    map_tipo_aneel "nom_cliente".toList = .TEXT := by
  refine ⟨?_, ?_, ?_, ?_, by decide, by decide, by decide, by decide, by decide⟩
  · simp only [map_tipo_aneel, lowerStr_idem]
  · intro h
    simp only [map_tipo_aneel]
    rw [h]
    simp
  · rintro ⟨h1, h2⟩
    simp only [map_tipo_aneel]
    rw [h1, h2]
    simp
  · rintro ⟨h1, h2⟩
    simp only [map_tipo_aneel]
    rw [h1, h2]
    simp

/-- Witness for C1 at concrete inputs, discharging the rule hypotheses. -/
theorem c1_map_tipo_aneel_rule_witness :
    map_tipo_aneel "FIC_1".toList = .INTEGER ∧ map_tipo_aneel "abc".toList = .TEXT :=
  ⟨(c1_map_tipo_aneel_rule "FIC_1".toList).2.1 (by decide),
   (c1_map_tipo_aneel_rule "abc".toList).2.2.2.1 ⟨by decide, by decide⟩⟩

/-- C2 evaluation: parse_date maps the specification's own example string
to null, because its fractional part has seven digits while the %f
directive of strptime consumes at most six, leaving unconverted input (a
ValueError caught as None); the six-digit variant of the same date does
parse to the expected ISO string, and strings not matching the format
parse to null. -/
theorem c2_parse_date_eval :
    parse_date "31DEC2023:00:00:00.0000000".toList = none ∧
    parse_date "31DEC2023:00:00:00.000000".toList = some "2023-12-31T00:00:00".toList ∧
    parse_date "garbage".toList = none ∧
    parse_date "30FEB2023:00:00:00.000000".toList = none ∧
    parse_date "".toList = none := by
  refine ⟨by decide, by decide, by decide, by decide, by decide⟩

/-- C3: the per-cell numeric coercion of the Dictionary Builder and of
the Typed Loader are identical functions, and both send every missing or
unparseable cell of an INTEGER or REAL column to the number 0 (never to
null). -/
theorem c3_numeric_coercion (v : Val) :
    num_coerce_builder v = num_coerce_loader v ∧
    ((v = .vnull ∨ ∃ s, v = .vstr s ∧ parseNum s = none) →
      num_coerce_builder v = .vnum 0) := by
  constructor
  · rfl
  · rintro (rfl | ⟨s, rfl, hs⟩)
    · rfl
    · simp [num_coerce_builder, to_numeric_val, hs, fillna_zero]

/-- Witness for C3 at the concrete unparseable cell vstr abc and at the
missing cell. -/
theorem c3_numeric_coercion_witness :
    num_coerce_builder (Val.vstr "abc".toList) = num_coerce_loader (Val.vstr "abc".toList) ∧
    num_coerce_builder (Val.vstr "abc".toList) = Val.vnum 0 ∧
    num_coerce_builder Val.vnull = Val.vnum 0 :=
  ⟨(c3_numeric_coercion _).1,
   (c3_numeric_coercion _).2 (Or.inr ⟨_, rfl, by decide⟩),
   (c3_numeric_coercion _).2 (Or.inl rfl)⟩

/-- Helper: concatenating the chunks of a list gives back the list. -/
theorem chunksOf_flatten (k : Nat) (hk : 0 < k) (l : List Row) :
    (chunksOf k l).flatten = l := by
  rw [chunksOf]
  by_cases hl : l = []
  · rw [if_pos (Or.inr hl)]
    simp [hl]
  · rw [if_neg (by simp [hl]; omega)]
    simp only [List.flatten_cons]
    rw [chunksOf_flatten k hk (l.drop k)]
    exact List.take_append_drop k l
termination_by l.length
decreasing_by
  rw [List.length_drop]
  have h3 : 0 < l.length := List.length_pos.mpr hl
  omega

/-- Helper: the chunks passed to to_sql by the import loop are the
transformed chunks, in order. -/
theorem importaLoop_written (tm : List (List Char × Tipo)) (cs : List (List Row)) :
    ∀ first batch written table,
      (importaLoop tm cs first batch written table).written =
        written ++ cs.map (transformChunk tm) := by
  induction cs with
  | nil =>
      intro first batch written table
      simp [importaLoop]
  | cons c cs ih =>
      intro first batch written table
      cases first <;> simp [importaLoop, ih]

/-- Helper: in append mode the import loop extends the table by the
transformed chunks. -/
theorem importaLoop_table_app (tm : List (List Char × Tipo)) (cs : List (List Row)) :
    ∀ batch written table,
      (importaLoop tm cs false batch written table).table =
        table ++ (cs.map (transformChunk tm)).flatten := by
  induction cs with
  | nil =>
      intro batch written table
      simp [importaLoop]
  | cons c cs ih =>
      intro batch written table
      simp [importaLoop, ih]

/-- Helper: with at least one chunk, replace-then-append leaves exactly
the transformed chunks in the table, whatever it held before. -/
theorem importaLoop_table_first (tm : List (List Char × Tipo)) (cs : List (List Row))
    (hcs : cs ≠ []) (batch : Nat) (written : List (List Row)) (table : List Row) :
    (importaLoop tm cs true batch written table).table =
      (cs.map (transformChunk tm)).flatten := by
  match cs with
  | [] => exact absurd rfl hcs
  | c :: cs =>
      simp [importaLoop, importaLoop_table_app]

/-- C8: for every chunk size k > 0, every dictionary and every source,
the rows written across all chunks of importa_tipo, concatenated, are
exactly the transformed source rows — so the total number of rows
written equals the number of source rows, with none lost or duplicated
at chunk boundaries — and for a nonempty source the final table contents
equal the transformed source regardless of any prior table contents. -/
theorem c8_chunked_load (tm : List (List Char × Tipo)) (k : Nat) (prev src : List Row)
    (hk : 0 < k) :
    (importa_tipo tm k prev src).written.flatten = src.map (transformRow tm) ∧
    ((importa_tipo tm k prev src).written.map List.length).sum = src.length ∧
    (src ≠ [] → (importa_tipo tm k prev src).table = src.map (transformRow tm)) := by
  have hw : (importa_tipo tm k prev src).written =
      (chunksOf k src).map (transformChunk tm) := by
    simp [importa_tipo, importaLoop_written]
  have hjoin : ((chunksOf k src).map (transformChunk tm)).flatten =
      src.map (transformRow tm) := by
    have hmap : (chunksOf k src).map (transformChunk tm) =
        (chunksOf k src).map (List.map (transformRow tm)) := by
      simp [transformChunk]
    rw [hmap, ← List.map_flatten, chunksOf_flatten k hk src]
  refine ⟨?_, ?_, ?_⟩
  · rw [hw]
    exact hjoin
  · rw [hw, ← List.length_flatten, hjoin, List.length_map]
  · intro hsrc
    have hchunks : chunksOf k src ≠ [] := by
      rw [chunksOf, if_neg (by simp [hsrc]; omega)]
      simp
    simp only [importa_tipo]
    rw [importaLoop_table_first tm _ hchunks]
    exact hjoin

/-- Witness for C8 on a seven-row source loaded in chunks of three into a
table holding one stale row. -/
theorem c8_chunked_load_witness :
    (importa_tipo [("a".toList, Tipo.TEXT)] 3 [[Val.vnum 9]]
        (List.replicate 7 [Val.vnum 1])).written.flatten =
      (List.replicate 7 [Val.vnum 1]).map (transformRow [("a".toList, Tipo.TEXT)]) ∧
    ((importa_tipo [("a".toList, Tipo.TEXT)] 3 [[Val.vnum 9]]
        (List.replicate 7 [Val.vnum 1])).written.map List.length).sum =
      (List.replicate 7 ([Val.vnum 1] : Row)).length ∧
    (importa_tipo [("a".toList, Tipo.TEXT)] 3 [[Val.vnum 9]]
        (List.replicate 7 [Val.vnum 1])).table =
      (List.replicate 7 [Val.vnum 1]).map (transformRow [("a".toList, Tipo.TEXT)]) := by
  have h := c8_chunked_load [("a".toList, Tipo.TEXT)] 3 [[Val.vnum 9]]
    (List.replicate 7 [Val.vnum 1]) (by decide)
  exact ⟨h.1, h.2.1, h.2.2 (by decide)⟩

/-- C9: on a column of the configured date-field list, the declared type
decides the transformation: INTEGER and REAL take the numeric coercion
(the date parser is never applied), and only declared type TEXT takes
the date parser. -/
theorem c9_numeric_over_date (col : List Char) (t : Tipo) (v : Val)
    (hcol : DATE_FIELDS.contains col = true) :
    ((t = .INTEGER ∨ t = .REAL) → transformColumn col t v = num_coerce_loader v) ∧
    (t = .TEXT → transformColumn col t v = applyDate v) := by
  constructor
  · rintro (rfl | rfl) <;> simp [transformColumn]
  · rintro rfl
    have hmem : col ∈ DATE_FIELDS := by simpa using hcol
    simp [transformColumn, hmem]

/-- Witness for C9 on the configured date field DATA_BASE: with declared
type INTEGER the cell is numerically coerced, with declared type TEXT it
is date-parsed. -/
theorem c9_numeric_over_date_witness :
    transformColumn "DATA_BASE".toList .INTEGER (Val.vstr "31DEC2023:00:00:00.000000".toList) =
      num_coerce_loader (Val.vstr "31DEC2023:00:00:00.000000".toList) ∧
    transformColumn "DATA_BASE".toList .TEXT (Val.vstr "x".toList) =
      applyDate (Val.vstr "x".toList) :=
  ⟨(c9_numeric_over_date _ _ _ (by decide)).1 (Or.inl rfl),
   (c9_numeric_over_date _ _ _ (by decide)).2 rfl⟩

/-- Helper: reading back an escaped quoted field body. -/
theorem rQuoted_escape (f rest : List Char) (hr : rest.head? ≠ some quoteC) :
    rQuoted (escapeQ f ++ quoteC :: rest) = (f, rest) := by
  induction f with
  | nil =>
      simp only [escapeQ, List.nil_append]
      match rest, hr with
      | [], _ => rfl
      | c2 :: t2, hr =>
          have hc2 : (c2 == quoteC) = false := by
            cases hbe : c2 == quoteC
            · rfl
            · exact absurd (by simp [beq_iff_eq.mp hbe]) hr
          simp [rQuoted, hc2]
  | cons a f ih =>
      by_cases ha : a = quoteC
      · subst ha
        simp only [escapeQ, if_pos]
        simp [rQuoted, ih]
      · have ha2 : (a == quoteC) = false := by simp [ha]
        simp only [escapeQ, ha2]
        simp only [Bool.false_eq_true, if_false, List.cons_append]
        rw [rQuoted.eq_def]
        simp only [ha2]
        simp [ih]

/-- Helper: reading back an unquoted field when the remaining input
starts with the delimiter or is empty. -/
theorem rRaw_append (f rest : List Char) (hf : sepC ∉ f)
    (hr : rest.head? = some sepC ∨ rest = []) :
    rRaw (f ++ rest) = (f, rest) := by
  induction f with
  | nil =>
      rcases hr with hsep | rfl
      · match rest, hsep with
        | c :: t, hsep =>
            have hc : c = sepC := by simpa using hsep
            subst hc
            simp [rRaw]
      · rfl
  | cons c f ih =>
      have hcs : ¬ c = sepC := by
        intro h
        exact hf (by simp [h])
      have hc : (c == sepC) = false := by simp [hcs]
      have hff : sepC ∉ f := fun h => hf (List.mem_cons_of_mem _ h)
      simp [rRaw, hc, ih hff]

/-- Helper: a field needing no quoting contains neither the delimiter
nor a quote character. -/
theorem needsQuote_false_mem (f : List Char) (hq : needsQuote f = false) :
    sepC ∉ f ∧ quoteC ∉ f := by
  have hall : ∀ c ∈ f, ¬(c == sepC || c == quoteC || c == nlC || c == crC) = true := by
    intro c hc hcon
    have : needsQuote f = true := by
      unfold needsQuote
      rw [List.any_eq_true]
      exact ⟨c, hc, hcon⟩
    rw [this] at hq
    exact absurd hq (by simp)
  constructor
  · intro hmem
    exact hall sepC hmem (by simp)
  · intro hmem
    exact hall quoteC hmem (by simp)

/-- Helper: reading back one written field when the remaining input
starts with the delimiter or is empty. -/
theorem rField_wField (f rest : List Char)
    (hr : rest.head? = some sepC ∨ rest = []) :
    rField (wField f ++ rest) = (f, rest) := by
  by_cases hq : needsQuote f = true
  · have hshape : wField f ++ rest = quoteC :: (escapeQ f ++ quoteC :: rest) := by
      simp [wField, hq, List.append_assoc]
    rw [hshape]
    have hhd : rest.head? ≠ some quoteC := by
      rcases hr with hsep | rfl
      · rw [hsep]
        intro hcon
        have : sepC = quoteC := by
          injection hcon
        exact (by decide : ¬ sepC = quoteC) this
      · simp
    simp only [rField, List.tail_cons]
    rw [if_pos (by simp)]
    exact rQuoted_escape f rest hhd
  · have hq2 : needsQuote f = false := by simpa using hq
    obtain ⟨hsep, hquo⟩ := needsQuote_false_mem f hq2
    rw [show wField f = f from by simp [wField, hq2]]
    match f, hsep, hquo with
    | [], _, _ =>
        rcases hr with hs | rfl
        · match rest, hs with
          | c :: t, hs =>
              have hc : c = sepC := by simpa using hs
              subst hc
              simp [rField, rRaw, show (sepC == quoteC) = false from by decide]
        · rfl
    | c :: f, hsep, hquo =>
        have hcq : (c == quoteC) = false := by
          have hne : ¬ c = quoteC := fun h => hquo (by simp [h])
          simp [hne]
        simp only [List.cons_append, rField]
        rw [if_neg (by simp [hcq])]
        exact rRaw_append (c :: f) rest hsep hr

/-- Helper: reading back one written record with enough fuel recovers
its fields. -/
theorem rLine_wLine_fuel (fields : List (List Char)) (hne : fields ≠ []) :
    ∀ n, (wLine fields).length < n → rLineFuel n (wLine fields) = fields := by
  induction fields with
  | nil => exact absurd rfl hne
  | cons f gs ih =>
      intro n hn
      cases n with
      | zero => omega
      | succ m =>
          cases gs with
          | nil =>
              have hf : rField (wField f) = (f, []) := by
                have := rField_wField f [] (Or.inr rfl)
                simpa using this
              rw [show wLine [f] = wField f from rfl]
              rw [rLineFuel.eq_def]
              simp [hf]
          | cons g gs2 =>
              have hshape : wLine (f :: g :: gs2) = wField f ++ sepC :: wLine (g :: gs2) := rfl
              have hf : rField (wField f ++ sepC :: wLine (g :: gs2)) =
                  (f, sepC :: wLine (g :: gs2)) :=
                rField_wField f _ (Or.inl rfl)
              have hlen : (wLine (g :: gs2)).length < m := by
                rw [hshape] at hn
                simp only [List.length_append, List.length_cons] at hn
                omega
              rw [hshape, rLineFuel.eq_def]
              simp only [hf]
              simp [ih (by simp) m hlen]

/-- Helper: reading back one written record recovers its fields. -/
theorem rLine_wLine (fields : List (List Char)) (hne : fields ≠ []) :
    rLine (wLine fields) = fields :=
  rLine_wLine_fuel fields hne _ (by omega)

/-- Helper: splitting a separator-free list yields it back whole. -/
theorem splitOnC_no_sep (sep : Char) (x : List Char) (hx : sep ∉ x) :
    splitOnC sep x = [x] := by
  induction x with
  | nil => rfl
  | cons c t ih =>
      have hcs : (c == sep) = false := by
        have hne2 : ¬ c = sep := fun hh => hx (by simp [hh])
        simp [hne2]
      have ht : sep ∉ t := fun hh => hx (List.mem_cons_of_mem _ hh)
      rw [splitOnC.eq_def]
      simp [hcs, ih ht]

/-- Helper: splitting at the first separator after a separator-free
chunk. -/
theorem splitOnC_chunk (sep : Char) (x rest : List Char) (hx : sep ∉ x) :
    splitOnC sep (x ++ sep :: rest) = x :: splitOnC sep rest := by
  induction x with
  | nil =>
      rw [List.nil_append, splitOnC.eq_def]
      simp
  | cons c t ih =>
      have hcs : (c == sep) = false := by
        have hne2 : ¬ c = sep := fun hh => hx (by simp [hh])
        simp [hne2]
      have ht : sep ∉ t := fun hh => hx (List.mem_cons_of_mem _ hh)
      rw [List.cons_append, splitOnC.eq_def]
      simp [hcs, ih ht]

/-- Helper: joining then splitting recovers separator-free chunks. -/
theorem splitOnC_joinWith (sep : Char) (xs : List (List Char)) (hne : xs ≠ [])
    (h : ∀ x ∈ xs, sep ∉ x) :
    splitOnC sep (joinWith sep xs) = xs := by
  induction xs with
  | nil => exact absurd rfl hne
  | cons x ys ih =>
      cases ys with
      | nil =>
          rw [show joinWith sep [x] = x from rfl]
          exact splitOnC_no_sep sep x (h x (by simp))
      | cons y ys2 =>
          rw [show joinWith sep (x :: y :: ys2) = x ++ sep :: joinWith sep (y :: ys2) from rfl]
          rw [splitOnC_chunk sep x _ (h x (by simp))]
          rw [ih (by simp) (fun z hz => h z (List.mem_cons_of_mem _ hz))]

/-- Helper: escaping adds only quote characters. -/
theorem mem_escapeQ (c : Char) (f : List Char) (hc : c ∈ escapeQ f) :
    c ∈ f ∨ c = quoteC := by
  induction f with
  | nil => simp [escapeQ] at hc
  | cons a t ih =>
      by_cases ha : (a == quoteC) = true
      · rw [escapeQ.eq_def] at hc
        simp only [ha, if_true] at hc
        rcases List.mem_cons.mp hc with rfl | hc2
        · exact Or.inr rfl
        · rcases List.mem_cons.mp hc2 with rfl | hc3
          · exact Or.inr rfl
          · rcases ih hc3 with h1 | h1
            · exact Or.inl (List.mem_cons_of_mem _ h1)
            · exact Or.inr h1
      · rw [escapeQ.eq_def] at hc
        simp only [ha] at hc
        rcases List.mem_cons.mp hc with rfl | hc2
        · exact Or.inl (by simp)
        · rcases ih hc2 with h1 | h1
          · exact Or.inl (List.mem_cons_of_mem _ h1)
          · exact Or.inr h1

/-- Helper: a newline never appears in the written form of a
newline-free field. -/
theorem nlC_not_mem_wField (f : List Char) (hnl : nlC ∉ f) : nlC ∉ wField f := by
  unfold wField
  by_cases hq : needsQuote f = true
  · rw [if_pos hq]
    intro hmem
    rcases List.mem_cons.mp hmem with h1 | h1
    · exact (by decide : ¬ nlC = quoteC) h1
    · rcases List.mem_append.mp h1 with h2 | h2
      · rcases mem_escapeQ _ _ h2 with h3 | h3
        · exact hnl h3
        · exact (by decide : ¬ nlC = quoteC) h3
      · have h3 : nlC = quoteC := by simpa using h2
        exact (by decide : ¬ nlC = quoteC) h3
  · rw [if_neg hq]
    exact hnl

/-- Helper: a written record of newline-free fields is newline-free. -/
theorem nlC_not_mem_wLine (fields : List (List Char))
    (h : ∀ f ∈ fields, nlC ∉ f) : nlC ∉ wLine fields := by
  induction fields with
  | nil => simp [wLine]
  | cons f gs ih =>
      cases gs with
      | nil =>
          rw [show wLine [f] = wField f from rfl]
          exact nlC_not_mem_wField f (h f (by simp))
      | cons g gs2 =>
          rw [show wLine (f :: g :: gs2) = wField f ++ sepC :: wLine (g :: gs2) from rfl]
          intro hmem
          rcases List.mem_append.mp hmem with h1 | h1
          · exact nlC_not_mem_wField f (h f (by simp)) h1
          · rcases List.mem_cons.mp h1 with h2 | h2
            · exact (by decide : ¬ nlC = sepC) h2
            · exact ih (fun x hx => h x (List.mem_cons_of_mem _ hx)) h2

/-- Helper: a three-field record is never the empty line. -/
theorem wLine_three_ne_nil (a b c : List Char) : wLine [a, b, c] ≠ [] := by
  rw [show wLine [a, b, c] = wField a ++ sepC :: wLine [b, c] from rfl]
  simp

/-- C4: for every sampled dataset whose column names contain no newline
character, the Dictionary File written by the Dictionary Builder and
re-read by the Typed Loader yields exactly the original
field-name-to-declared-type mapping: one pair per column, in order, the
declared type being the one map_tipo_aneel inferred (the dictionary
format, with csv minimal quoting, is a faithful serialization). -/
theorem c4_dda_roundtrip (df : DF)
    (h : ∀ c ∈ df.cols, nlC ∉ c.1) :
    load_dda_pairs (writeDDA (buildDDA df)) =
      df.cols.map (fun c => (c.1, tipoStr (map_tipo_aneel c.1))) := by
  have hnl_all : ∀ x ∈ (wLine headerFields ::
      (buildDDA df).map (fun r => wLine (ddaRowFields r))) ++ [[]], nlC ∉ x := by
    intro x hx
    rcases List.mem_append.mp hx with hx1 | hx1
    · rcases List.mem_cons.mp hx1 with rfl | hx2
      · exact nlC_not_mem_wLine _ (by decide)
      · obtain ⟨r, hr, rfl⟩ := List.mem_map.mp hx2
        obtain ⟨c, hc, rfl⟩ := List.mem_map.mp hr
        apply nlC_not_mem_wLine
        intro f hf
        rcases List.mem_cons.mp hf with rfl | hf2
        · exact h c hc
        · rcases List.mem_cons.mp hf2 with rfl | hf3
          · show nlC ∉ dtypeAfter (map_tipo_aneel c.1)
            cases map_tipo_aneel c.1 <;> decide
          · rcases List.mem_cons.mp hf3 with rfl | hf4
            · show nlC ∉ tipoStr (map_tipo_aneel c.1)
              cases map_tipo_aneel c.1 <;> decide
            · simp at hf4
    · have hx2 : x = [] := by simpa using hx1
      subst hx2
      simp
  have hsplit : splitOnC nlC (writeDDA (buildDDA df)) =
      (wLine headerFields :: (buildDDA df).map (fun r => wLine (ddaRowFields r))) ++ [[]] := by
    unfold writeDDA
    exact splitOnC_joinWith nlC _ (by simp) hnl_all
  have hfilter : (((wLine headerFields ::
      (buildDDA df).map (fun r => wLine (ddaRowFields r))) ++ [[]]).filter
      (fun l => !l.isEmpty)) =
      wLine headerFields :: (buildDDA df).map (fun r => wLine (ddaRowFields r)) := by
    rw [List.filter_append]
    have h2 : ([([] : List Char)].filter (fun l => !l.isEmpty)) = [] := by decide
    rw [h2, List.append_nil]
    apply List.filter_eq_self.mpr
    intro a ha
    rcases List.mem_cons.mp ha with rfl | ha2
    · decide
    · obtain ⟨r, hr, rfl⟩ := List.mem_map.mp ha2
      have : wLine (ddaRowFields r) ≠ [] := by
        rw [show ddaRowFields r = [r.campo, r.pandas_dtype, tipoStr r.tipo_aneel] from rfl]
        exact wLine_three_ne_nil _ _ _
      simpa [List.isEmpty_iff]
  unfold load_dda_pairs
  rw [hsplit, hfilter]
  simp only [List.map_map]
  unfold buildDDA
  rw [List.map_map]
  apply List.map_congr_left
  intro c hc
  simp only [Function.comp]
  rw [rLine_wLine _ (by simp [ddaRowFields])]
  rfl

/-- Witness for C4 on a two-column sample whose second column name
contains the field delimiter (so the writer must quote it). -/
theorem c4_dda_roundtrip_witness :
    load_dda_pairs (writeDDA (buildDDA (DF.mk
      [("FIC_1".toList, []), ("nom;cli".toList, [])]))) =
      [("FIC_1".toList, "INTEGER".toList), ("nom;cli".toList, "TEXT".toList)] := by
  rw [c4_dda_roundtrip _ (by decide)]
  decide

/-- Helper: a collect-if-violated filterMap is the filter of the violated
entries mapped to their messages. -/
theorem filterMap_violations {β : Type} (holds : β → Bool) (msg : β → List Char)
    (rs : List β) :
    rs.filterMap (fun r => if !(holds r) then some (msg r) else none) =
      (rs.filter (fun r => !(holds r))).map msg := by
  induction rs with
  | nil => rfl
  | cons r rest ih =>
      cases hr : holds r <;>
        simpa [List.filterMap_cons, List.filter_cons, hr] using ih

/-- C5: the Typed Loader's pre-flight check reports exactly one message
per violated requirement — input directory, dictionary directory, the
source file of every tier, the Dictionary File of every tier, all
collected in check order — and whenever at least one requirement is
violated the main block terminates with exit status 1 carrying that
full list, before any dataset is loaded. -/
theorem c5_loader_preflight (fs : FS) (tm : Tier → List (List Char × Tipo))
    (src : Tier → List Row) :
    verify_files fs = (lreqs.filter (fun r => !(lreqHolds fs r))).map lreqMsg ∧
    (verify_files fs ≠ [] →
      loaderMain fs tm src = .fatal (verify_files fs) 1) := by
  constructor
  · have e1 : (if !(fs.isDir INPUT_DIR) then [msgInputDirL] else []) =
        ([LReq.inputDir].filter (fun r => !(lreqHolds fs r))).map lreqMsg := by
      cases h1 : fs.isDir INPUT_DIR <;> simp [lreqHolds, lreqMsg, h1]
    have e2 : (if !(fs.isDir DDA_DIR) then [msgDdaDirL] else []) =
        ([LReq.ddaDir].filter (fun r => !(lreqHolds fs r))).map lreqMsg := by
      cases h2 : fs.isDir DDA_DIR <;> simp [lreqHolds, lreqMsg, h2]
    have e3 : tiers.filterMap (fun tp =>
          if !(fs.pexists (fileOf tp)) then some (msgDataMissing tp) else none) =
        ((tiers.map LReq.dataFile).filter (fun r => !(lreqHolds fs r))).map lreqMsg := by
      rw [filterMap_violations (fun tp => fs.pexists (fileOf tp)) msgDataMissing tiers]
      rw [List.filter_map, List.map_map]
      rfl
    have e4 : tiers.filterMap (fun tp =>
          if !(fs.pexists (ddaFileOf tp)) then some (msgDdaMissing tp) else none) =
        ((tiers.map LReq.ddaFile).filter (fun r => !(lreqHolds fs r))).map lreqMsg := by
      rw [filterMap_violations (fun tp => fs.pexists (ddaFileOf tp)) msgDdaMissing tiers]
      rw [List.filter_map, List.map_map]
      rfl
    rw [show lreqs = ([LReq.inputDir] ++ [LReq.ddaDir]) ++
        tiers.map LReq.dataFile ++ tiers.map LReq.ddaFile from rfl]
    simp only [List.filter_append, List.map_append]
    unfold verify_files
    rw [e1, e2, e3, e4]
  · intro hne
    unfold loaderMain
    rw [if_neg (by simpa [List.isEmpty_iff] using hne)]

/-- Witness for C5 on a file system with nothing present: all eight
requirements are violated, all eight messages are reported together,
and the run is fatal with status 1. -/
theorem c5_loader_preflight_witness :
    (verify_files (FS.mk (fun _ => false) (fun _ => false))).length = 8 ∧
    loaderMain (FS.mk (fun _ => false) (fun _ => false)) (fun _ => []) (fun _ => []) =
      .fatal (verify_files (FS.mk (fun _ => false) (fun _ => false))) 1 :=
  ⟨by decide, (c5_loader_preflight _ _ _).2 (by decide)⟩

/-- C6 counterexample: on a file system where the input directory and
all three source files are present but the target directory OUTPUT_DIR
is missing, verify_environment reports nothing and the builder run
proceeds to process — and export — every dataset. A missing target
directory is therefore not a pre-flight fatal error and does not
terminate the run. -/
theorem c6_counterexample_target_dir :
    verify_environment fsNoTarget = [] ∧
    fsNoTarget.isDir OUTPUT_DIR = false ∧
    builderMain fsNoTarget (fun _ => .ok (DF.mk [])) =
      .ran [(.at_, .exported (ddaFileOf .at_) []),
            (.mt, .exported (ddaFileOf .mt) []),
            (.bt, .exported (ddaFileOf .bt) [])] :=
  ⟨by decide, by decide, by decide⟩

/-- C6 amended: a missing source directory or a missing source file is a
pre-flight fatal error for the whole builder run — verify_environment
reports exactly one message per violated requirement, in check order,
and a nonempty missing list terminates the run with exit status 1
before any dataset is processed. The target directory is not checked
pre-flight; it is created on demand during each dataset's export. -/
theorem c6_builder_preflight (fs : FS) (src : Tier → Except (List Char) DF) :
    verify_environment fs = (breqs.filter (fun r => !(breqHolds fs r))).map breqMsg ∧
    (verify_environment fs ≠ [] →
      builderMain fs src = .fatal (verify_environment fs) 1) := by
  constructor
  · have e1 : (if !(fs.pexists INPUT_DIR) || !(fs.isDir INPUT_DIR)
          then [msgInputMissing] else []) =
        ([BReq.inputDir].filter (fun r => !(breqHolds fs r))).map breqMsg := by
      cases h1 : fs.pexists INPUT_DIR <;> cases h2 : fs.isDir INPUT_DIR <;>
        simp [breqHolds, breqMsg, h1, h2]
    have e2 : tiers.filterMap (fun tp =>
          if !(fs.pexists (fileOf tp)) then some (msgFileMissing tp) else none) =
        ((tiers.map BReq.srcFile).filter (fun r => !(breqHolds fs r))).map breqMsg := by
      rw [filterMap_violations (fun tp => fs.pexists (fileOf tp)) msgFileMissing tiers]
      rw [List.filter_map, List.map_map]
      rfl
    rw [show breqs = [BReq.inputDir] ++ tiers.map BReq.srcFile from rfl]
    simp only [List.filter_append, List.map_append]
    unfold verify_environment
    rw [e1, e2]
  · intro hne
    unfold builderMain
    rw [if_neg (by simpa [List.isEmpty_iff] using hne)]

/-- Witness for C6's amended claim on a file system with nothing
present: the input directory and all three source files are reported
together and the run is fatal with status 1. -/
theorem c6_builder_preflight_witness :
    (verify_environment (FS.mk (fun _ => false) (fun _ => false))).length = 4 ∧
    builderMain (FS.mk (fun _ => false) (fun _ => false)) (fun _ => .ok (DF.mk [])) =
      .fatal (verify_environment (FS.mk (fun _ => false) (fun _ => false))) 1 :=
  ⟨by decide, (c6_builder_preflight _ _).2 (by decide)⟩

/-- Helper: the outcome of one dataset depends only on that dataset's
source — after creating the output directory the export cannot fail, so
the per-dataset try block yields exported on a successful read and
failedLogged on an exception, whatever the file system holds. -/
theorem processar_tipo_outcome (fs : FS) (tp : Tier) (src : Except (List Char) DF) :
    (processar_tipo fs tp src).2 = builderOutcomeOf tp src := by
  cases src with
  | error e => rfl
  | ok df =>
      unfold processar_tipo builderOutcomeOf
      have hdir : (mkdirP fs OUTPUT_DIR).isDir OUTPUT_DIR = true := by
        simp [mkdirP]
      simp [writeFileIn, hdir]

/-- C7: when the pre-flight check passes, the Dictionary Builder
attempts every configured tier in order, and each tier's outcome is a
function of that tier's source alone: an exception while processing one
dataset is caught and logged (failedLogged) and the remaining datasets
are still processed and exported. -/
theorem c7_builder_fault_isolation (fs : FS) (src : Tier → Except (List Char) DF)
    (h : verify_environment fs = []) :
    builderMain fs src =
      .ran (tiers.map (fun tp => (tp, builderOutcomeOf tp (src tp)))) := by
  unfold builderMain
  rw [if_pos (by simp [h])]
  show BRun.ran (builderLoop fs [Tier.at_, Tier.mt, Tier.bt] src) = _
  simp [builderLoop, processar_tipo_outcome, tiers]

/-- Witness for C7: the MT source fails mid-processing while AT and BT
read fine; the MT failure is logged and the AT and BT dictionaries are
still produced. -/
theorem c7_builder_fault_isolation_witness :
    builderMain fsNoTarget
      (fun tp => match tp with
        | .mt => .error "malformed".toList
        | _ => .ok (DF.mk [])) =
      .ran [(.at_, .exported (ddaFileOf .at_) []),
            (.mt, .failedLogged "malformed".toList),
            (.bt, .exported (ddaFileOf .bt) [])] := by
  rw [c7_builder_fault_isolation _ _ (by decide)]
  decide

/-- C10: before writing a Dictionary File, processar_tipo creates the
output directory (with parents, and exist_ok for an already existing
one) inside the per-dataset handler, so on every starting file system —
in particular one where the target directory is missing — the export
succeeds and the directory exists afterwards. -/
theorem c10_mkdir_before_export (fs : FS) (tp : Tier) (df : DF) :
    (processar_tipo fs tp (.ok df)).2 =
      .exported (ddaFileOf tp) (buildDDA (adjust_df df)) ∧
    (processar_tipo fs tp (.ok df)).1.isDir OUTPUT_DIR = true := by
  constructor
  · rw [processar_tipo_outcome]
    rfl
  · unfold processar_tipo
    have hdir : (mkdirP fs OUTPUT_DIR).isDir OUTPUT_DIR = true := by
      simp [mkdirP]
    simp [writeFileIn, hdir, mkdirP]
